import Mathlib

/-!
Verification of the iceoryx shared-memory chunk-distribution core.

The definitions below are a shallow embedding of
`iceoryx_posh/source/mepoo/mem_pool.cpp`,
`iceoryx_hoofs/include/iceoryx_hoofs/posix_wrapper/file_lock.hpp` and the
ChunkHeader interface exercised by
`iceoryx_posh/test/moduletests/test_mepoo_chunk_header.cpp`.

Machine integers are modelled as `Nat` with explicit reduction modulo
`2 ^ 32` (for `uint32_t`) and `2 ^ 64` (for `uint64_t`) wherever the C++
arithmetic can wrap. Pointers are modelled as natural addresses. Fatal
error paths (`IOX_EXPECTS`, `errorHandler`) are modelled by `Except`:
the error handler does not return, so the state update following a fatal
call is not performed in the model.
-/

set_option autoImplicit false
set_option linter.unusedVariables false

namespace Iceoryx

/-- Modulus of `uint32_t` arithmetic. -/
def U32MOD : Nat := 2 ^ 32

/-- Modulus of `uint64_t` arithmetic. -/
def U64MOD : Nat := 2 ^ 64

/-- Largest value of `uint64_t`, `std::numeric_limits<uint64_t>::max()`. -/
def UINT64_MAX : Nat := 2 ^ 64 - 1

/-- Largest value of `uint32_t`, `std::numeric_limits<uint32_t>::max()`. -/
def UINT32_MAX : Nat := 2 ^ 32 - 1

/-- Wrapping `uint32_t` addition. -/
def add32 (a b : Nat) : Nat := (a + b) % U32MOD

/-- Wrapping `uint32_t` subtraction. -/
def sub32 (a b : Nat) : Nat := (a + U32MOD - b % U32MOD) % U32MOD

/-- Wrapping `uint64_t` multiplication. -/
def mul64 (a b : Nat) : Nat := (a * b) % U64MOD

theorem add32_eq_of_lt (a b : Nat) (h : a + b < U32MOD) : add32 a b = a + b :=
  Nat.mod_eq_of_lt h

theorem sub32_eq_of_le (a b : Nat) (hb : b ≤ a) (ha : a < U32MOD) :
    sub32 a b = a - b := by
  unfold sub32 U32MOD at *
  omega

theorem mul64_eq_of_lt (a b : Nat) (h : a * b < U64MOD) : mul64 a b = a * b :=
  Nat.mod_eq_of_lt h

/-- Fatal error tags raised through `errorHandler` and `IOX_EXPECTS` in the
embedded code. `PRECONDITION_VIOLATION` stands for a failed `IOX_EXPECTS`
or `IOX_EXPECTS_WITH_MSG` check. -/
inductive PoshError
  | MEPOO_MEMPOOL_CHUNKSIZE_MUST_BE_MULTIPLE_OF_CHUNK_MEMORY_ALIGNMENT
  | POSH_MEMPOOL_POSSIBLE_DOUBLE_FREE
  | PRECONDITION_VIOLATION
  deriving DecidableEq, Repr

/-- Modelled from the spec: `CHUNK_ALIGNMENT = 32`. The numeric value of
`MemPool::CHUNK_MEMORY_ALIGNMENT` lives in `mem_pool.hpp`, which is not part
of this snapshot; the spec fixes it to 32. -/
def CHUNK_MEMORY_ALIGNMENT : Nat := 32

/-- State of `iox::mepoo::MemPool`. The lock-free free-index queue
`m_freeIndices` is modelled as a list of indices together with its capacity
`m_numberOfChunks`; `m_usedChunks` and `m_minFree` are `uint32_t` atomics,
`m_chunkSize` is `uint64_t`, `m_rawMemory` is the base address of the chunk
memory. -/
structure MemPool where
  m_chunkSize : Nat
  m_numberOfChunks : Nat
  m_rawMemory : Nat
  m_freeIndices : List Nat
  m_usedChunks : Nat
  m_minFree : Nat
  deriving DecidableEq, Repr

/-- Modelled from the spec: `push(index) → bool` of the bounded lock-free
index queue (`freeList_t`, not part of this snapshot) inserts the index and
fails exactly when the queue already holds `capacity` elements. The queue
order is implementation-defined; the model appends at the tail. -/
def freeListPush (capacity : Nat) (q : List Nat) (index : Nat) : Option (List Nat) :=
  if q.length < capacity then some (q ++ [index]) else none

/-- Modelled from the spec: `pop() → optional<index>` of the bounded
lock-free index queue removes and returns some index, failing exactly when
the queue is empty. The model removes at the head. -/
def freeListPop (q : List Nat) : Option (Nat × List Nat) :=
  match q with
  | [] => none
  | i :: rest => some (i, rest)

/-- `MemPool::isMultipleOfAlignment`. -/
def isMultipleOfAlignment (value : Nat) : Bool :=
  value % CHUNK_MEMORY_ALIGNMENT = 0

/-- `MemPool::MemPool(chunkSize, numberOfChunks, managementAllocator,
chunkMemoryAllocator)`. The two `BumpAllocator` arguments are abstracted
into the resulting base address `rawMemory`: the allocator itself is not
part of this snapshot and both `IOX_EXPECTS(allocationResult.has_value())`
checks are modelled as succeeding. The free-index queue is pre-loaded with
all indices `0 .. numberOfChunks - 1` (spec, construction step 5). -/
def MemPool.construct (chunkSize numberOfChunks rawMemory : Nat) :
    Except PoshError MemPool :=
  if isMultipleOfAlignment chunkSize then
    if chunkSize ≤ UINT64_MAX / numberOfChunks then
      .ok { m_chunkSize := chunkSize
            m_numberOfChunks := numberOfChunks
            m_rawMemory := rawMemory
            m_freeIndices := List.range numberOfChunks
            m_usedChunks := 0
            m_minFree := numberOfChunks }
    else
      .error .PRECONDITION_VIOLATION
  else
    .error .MEPOO_MEMPOOL_CHUNKSIZE_MUST_BE_MULTIPLE_OF_CHUNK_MEMORY_ALIGNMENT

/-- `MemPool::adjustMinFree`: stores
`min(m_numberOfChunks - m_usedChunks, m_minFree)`; the subtraction is
`uint32_t` arithmetic. -/
def MemPool.adjustMinFree (pool : MemPool) : MemPool :=
  { pool with
    m_minFree := min (sub32 pool.m_numberOfChunks pool.m_usedChunks) pool.m_minFree }

/-- `MemPool::indexToPointer`: returns
`rawMemoryBase + uint64(index) * chunkSize`; the multiplication is
`uint64_t` arithmetic. -/
def indexToPointer (index chunkSize rawMemoryBase : Nat) : Nat :=
  rawMemoryBase + mul64 index chunkSize

/-- `MemPool::pointerToIndex`: computes `offset = chunk - rawMemoryBase`,
requires `offset % chunkSize == 0` through `IOX_EXPECTS`, and returns
`uint32(offset / chunkSize)`. -/
def pointerToIndex (chunk chunkSize rawMemoryBase : Nat) : Except PoshError Nat :=
  let offset := chunk - rawMemoryBase
  if offset % chunkSize = 0 then
    .ok ((offset / chunkSize) % U32MOD)
  else
    .error .PRECONDITION_VIOLATION

/-- `MemPool::getChunk`: pops an index from the free-index queue; on an
empty queue it logs a warning and returns `nullptr` (no fatal error, state
untouched). On success it increments `m_usedChunks` (relaxed), runs
`adjustMinFree`, and returns `indexToPointer(index, m_chunkSize,
m_rawMemory)`. -/
def MemPool.getChunk (pool : MemPool) : Option Nat × MemPool :=
  match freeListPop pool.m_freeIndices with
  | none => (none, pool)
  | some (index, rest) =>
    let pool1 : MemPool :=
      { pool with
        m_freeIndices := rest
        m_usedChunks := add32 pool.m_usedChunks 1 }
    let pool2 := pool1.adjustMinFree
    (some (indexToPointer index pool2.m_chunkSize pool2.m_rawMemory), pool2)

/-- `MemPool::freeChunk`: checks
`m_rawMemory <= chunk && chunk <= m_rawMemory + m_chunkSize * (m_numberOfChunks - 1)`
through `IOX_EXPECTS`, converts the pointer to an index (fatal when the
offset is not a multiple of the chunk size), pushes the index onto the
free-index queue (raising `POSH__MEMPOOL_POSSIBLE_DOUBLE_FREE` when the
queue is already full), and decrements `m_usedChunks` (relaxed). -/
def MemPool.freeChunk (pool : MemPool) (chunk : Nat) : Except PoshError MemPool :=
  let offsetToLastChunk := mul64 pool.m_chunkSize (sub32 pool.m_numberOfChunks 1)
  if pool.m_rawMemory ≤ chunk ∧ chunk ≤ pool.m_rawMemory + offsetToLastChunk then
    match pointerToIndex chunk pool.m_chunkSize pool.m_rawMemory with
    | .error e => .error e
    | .ok index =>
      match freeListPush pool.m_numberOfChunks pool.m_freeIndices index with
      | none => .error .POSH_MEMPOOL_POSSIBLE_DOUBLE_FREE
      | some q =>
        .ok { pool with
              m_freeIndices := q
              m_usedChunks := sub32 pool.m_usedChunks 1 }
  else
    .error .PRECONDITION_VIOLATION

/-- A pool operation of a sequential trace: `acquire` is `getChunk`,
`release chunk` is `freeChunk(chunk)`. -/
inductive PoolOp
  | acquire
  | release (chunk : Nat)
  deriving DecidableEq, Repr

/-- One completed call. `getChunk` never raises a fatal error (returning
`nullptr` on exhaustion is a completed call); `freeChunk` completes only
when no fatal error is raised. -/
def step (pool : MemPool) : PoolOp → Except PoshError MemPool
  | .acquire => .ok pool.getChunk.2
  | .release chunk => pool.freeChunk chunk

/-- Runs a sequence of pool operations; the result is `ok` exactly when
every call completed. -/
def run (pool : MemPool) : List PoolOp → Except PoshError MemPool
  | [] => .ok pool
  | op :: ops =>
    match step pool op with
    | .error e => .error e
    | .ok pool1 => run pool1 ops

/-- Conservation: the number of indices held in the free-index queue plus
`m_usedChunks` equals `m_numberOfChunks`. -/
def Conservation (pool : MemPool) : Prop :=
  pool.m_freeIndices.length + pool.m_usedChunks = pool.m_numberOfChunks

instance (pool : MemPool) : Decidable (Conservation pool) := by
  unfold Conservation; infer_instance

/-- States reachable by sequential traces: the chunk count fits `uint32_t`,
conservation holds, and `m_minFree` is at most the number of free chunks. -/
def Good (pool : MemPool) : Prop :=
  pool.m_numberOfChunks < U32MOD ∧
  Conservation pool ∧
  pool.m_minFree ≤ pool.m_numberOfChunks - pool.m_usedChunks

/-- Byte count of a C character-array literal holding a string of `len`
characters: `sizeof` counts the terminating NUL, so the value is
`len + 1`. -/
def sizeofCharArray (len : Nat) : Nat := len + 1

/-- Character count of `FileLock::LOCK_FILE_SUFFIX`, the string ".lock". -/
def LOCK_FILE_SUFFIX_LEN : Nat := 5

/-- `FileLock::FILENAME_LENGTH` from `file_lock.hpp`:
`platform::IOX_MAX_FILENAME_LENGTH
 - sizeof(platform::IOX_LOCK_FILE_PATH_PREFIX) / sizeof(char)
 - sizeof(LOCK_FILE_SUFFIX) / sizeof(char)`.
The platform constants `IOX_MAX_FILENAME_LENGTH` and
`IOX_LOCK_FILE_PATH_PREFIX` live in platform headers outside this snapshot
and are kept as parameters: `maxFilenameLength` is the numeric maximum and
`lockPathPfxLen` is the character count of the lock-path literal without
its NUL terminator (the platform headers declare it as a character-array
literal, so its `sizeof` is the character count plus one). -/
def FILENAME_LENGTH (maxFilenameLength lockPathPfxLen : Nat) : Nat :=
  maxFilenameLength - sizeofCharArray lockPathPfxLen - sizeofCharArray LOCK_FILE_SUFFIX_LEN

/-- Modelled from the spec: the byte size of `mepoo::ChunkHeader`
(`chunk_header.hpp` is not part of this snapshot). The spec layout table
occupies 36 bytes and the header is aligned to 32 bytes, so the padded size
is 64. No claim depends on the exact value; only `SIZEOF_CHUNK_HEADER <
UINT32_MAX` matters. -/
def SIZEOF_CHUNK_HEADER : Nat := 64

/-- Modelled from the spec: byte size of `ChunkHeader::PayloadOffset_t`
(`payloadOffset` is an unsigned 32-bit field). -/
def SIZEOF_PAYLOAD_OFFSET : Nat := 4

/-- Rounds `value` up to the next multiple of `alignment`. -/
def alignUp (value alignment : Nat) : Nat :=
  ((value + alignment - 1) / alignment) * alignment

/-- Modelled from the spec: the `mepoo::ChunkHeader` fields the claims are
about. `chunkSize`, `payloadSize` and `payloadOffset` are unsigned 32-bit
fields; the remaining fields (version, reserved bytes, origin id, sequence
number) play no role in the claims and are omitted. -/
structure ChunkHeader where
  chunkSize : Nat
  payloadSize : Nat
  payloadOffset : Nat
  deriving DecidableEq, Repr

/-- Modelled from the spec: `ChunkHeader(chunkSize, payloadSize,
payloadAlignment, userHeaderSize, userHeaderAlignment)`. With
`userHeaderSize == 0` the payload is adjacent: `payloadOffset =
sizeof(ChunkHeader)`. With a user header the payload starts at the smallest
offset that is at least `sizeof(ChunkHeader) + userHeaderSize +
sizeof(PayloadOffset)` and satisfies `payloadAlignment`. -/
def ChunkHeader.construct (chunkSize payloadSize payloadAlignment
    userHeaderSize userHeaderAlignment : Nat) : ChunkHeader :=
  if userHeaderSize = 0 then
    { chunkSize := chunkSize
      payloadSize := payloadSize
      payloadOffset := SIZEOF_CHUNK_HEADER }
  else
    { chunkSize := chunkSize
      payloadSize := payloadSize
      payloadOffset :=
        alignUp (SIZEOF_CHUNK_HEADER + userHeaderSize + SIZEOF_PAYLOAD_OFFSET)
          payloadAlignment }

/-- Modelled from the spec: `usedSizeOfChunk()` returns
`payloadOffset + payloadSize` and raises the fatal error path when that sum
exceeds `chunkSize`. -/
def ChunkHeader.usedSizeOfChunk (h : ChunkHeader) : Except PoshError Nat :=
  if h.payloadOffset + h.payloadSize ≤ h.chunkSize then
    .ok (h.payloadOffset + h.payloadSize)
  else
    .error .PRECONDITION_VIOLATION

/-- Modelled from the spec: a chunk laid out at address `base`. When a user
header is present, a `PayloadOffset_t` back-offset field immediately
precedes the payload; `backOffset` is the value stored there. -/
structure Chunk where
  base : Nat
  header : ChunkHeader
  hasUserHeader : Bool
  backOffset : Nat
  deriving DecidableEq, Repr

/-- Modelled from the spec: building a chunk lays out the header with
`ChunkHeader.construct` and, when a user header is present, stores the
distance from header start to payload into the back-offset field. -/
def mkChunk (base chunkSize payloadSize payloadAlignment
    userHeaderSize userHeaderAlignment : Nat) : Chunk :=
  let h := ChunkHeader.construct chunkSize payloadSize payloadAlignment
    userHeaderSize userHeaderAlignment
  { base := base
    header := h
    hasUserHeader := decide (userHeaderSize ≠ 0)
    backOffset := h.payloadOffset }

/-- Modelled from the spec: `payload()` returns `this + payloadOffset`. -/
def Chunk.payload (c : Chunk) : Nat := c.base + c.header.payloadOffset

/-- Modelled from the spec: `fromPayload(p)` returns null for a null
pointer; otherwise, with a user header present it reads the back-offset
stored at `p - sizeof(PayloadOffset)` and returns `p - offset`, and with an
adjacent layout (no user header) it returns `p - sizeof(ChunkHeader)`. -/
def Chunk.fromPayload (c : Chunk) (p : Option Nat) : Option Nat :=
  match p with
  | none => none
  | some addr =>
    if c.hasUserHeader then some (addr - c.backOffset)
    else some (addr - SIZEOF_CHUNK_HEADER)

theorem construct_ok_fields (cs n raw : Nat) (pool : MemPool)
    (h : MemPool.construct cs n raw = .ok pool) :
    pool.m_chunkSize = cs ∧ pool.m_numberOfChunks = n ∧ pool.m_rawMemory = raw ∧
    pool.m_freeIndices = List.range n ∧ pool.m_usedChunks = 0 ∧ pool.m_minFree = n := by
  unfold MemPool.construct at h
  split at h
  · split at h
    · cases h
      exact ⟨rfl, rfl, rfl, rfl, rfl, rfl⟩
    · cases h
  · cases h

theorem getChunk_nil (pool : MemPool) (h : pool.m_freeIndices = []) :
    pool.getChunk = (none, pool) := by
  unfold MemPool.getChunk freeListPop
  rw [h]

theorem getChunk_cons (pool : MemPool) (i : Nat) (rest : List Nat)
    (h : pool.m_freeIndices = i :: rest) :
    pool.getChunk =
      (some (indexToPointer i pool.m_chunkSize pool.m_rawMemory),
       { pool with
         m_freeIndices := rest
         m_usedChunks := add32 pool.m_usedChunks 1
         m_minFree := min (sub32 pool.m_numberOfChunks (add32 pool.m_usedChunks 1))
                          pool.m_minFree }) := by
  unfold MemPool.getChunk freeListPop MemPool.adjustMinFree
  rw [h]

theorem freeChunk_ok_inv {pool pool2 : MemPool} {chunk : Nat}
    (h : pool.freeChunk chunk = .ok pool2) :
    ∃ index,
      pointerToIndex chunk pool.m_chunkSize pool.m_rawMemory = .ok index ∧
      pool.m_freeIndices.length < pool.m_numberOfChunks ∧
      pool2 = { pool with
                m_freeIndices := pool.m_freeIndices ++ [index]
                m_usedChunks := sub32 pool.m_usedChunks 1 } := by
  simp only [MemPool.freeChunk] at h
  by_cases hrange : pool.m_rawMemory ≤ chunk ∧
      chunk ≤ pool.m_rawMemory + mul64 pool.m_chunkSize (sub32 pool.m_numberOfChunks 1)
  · rw [if_pos hrange] at h
    cases hpi : pointerToIndex chunk pool.m_chunkSize pool.m_rawMemory with
    | error e => rw [hpi] at h; cases h
    | ok index =>
      rw [hpi] at h
      dsimp only at h
      cases hpush : freeListPush pool.m_numberOfChunks pool.m_freeIndices index with
      | none => rw [hpush] at h; cases h
      | some q =>
        rw [hpush] at h
        cases h
        unfold freeListPush at hpush
        split at hpush
        · cases hpush
          exact ⟨index, rfl, by assumption, rfl⟩
        · cases hpush
  · rw [if_neg hrange] at h
    cases h

theorem step_good {pool pool2 : MemPool} {op : PoolOp}
    (hg : Good pool) (h : step pool op = .ok pool2) :
    Good pool2 ∧ pool2.m_numberOfChunks = pool.m_numberOfChunks ∧
    pool2.m_minFree ≤ pool.m_minFree := by
  obtain ⟨hn, hc, hm⟩ := hg
  unfold Conservation at hc
  cases op with
  | acquire =>
    simp only [step, Except.ok.injEq] at h
    subst h
    cases hq : pool.m_freeIndices with
    | nil =>
      rw [getChunk_nil pool hq]
      exact ⟨⟨hn, hc, hm⟩, rfl, le_refl _⟩
    | cons i rest =>
      rw [getChunk_cons pool i rest hq]
      rw [hq] at hc
      simp only [List.length_cons] at hc
      have hu1 : pool.m_usedChunks + 1 < U32MOD := by omega
      have ha : add32 pool.m_usedChunks 1 = pool.m_usedChunks + 1 :=
        add32_eq_of_lt _ _ hu1
      have hs : sub32 pool.m_numberOfChunks (pool.m_usedChunks + 1) =
          pool.m_numberOfChunks - (pool.m_usedChunks + 1) :=
        sub32_eq_of_le _ _ (by omega) hn
      refine ⟨⟨hn, ?_, ?_⟩, rfl, ?_⟩
      · unfold Conservation
        simp only [List.length_cons, ha]
        omega
      · simp only [ha, hs]
        exact le_trans (min_le_left _ _) (le_refl _)
      · exact min_le_right _ _
  | release chunk =>
    simp only [step] at h
    obtain ⟨index, hpi, hlen, hp2⟩ := freeChunk_ok_inv h
    subst hp2
    have hu : 1 ≤ pool.m_usedChunks := by omega
    have hsu : sub32 pool.m_usedChunks 1 = pool.m_usedChunks - 1 :=
      sub32_eq_of_le _ _ hu (by omega)
    refine ⟨⟨hn, ?_, ?_⟩, rfl, le_refl _⟩
    · unfold Conservation
      simp only [List.length_append, List.length_cons, List.length_nil, hsu]
      omega
    · simp only [hsu]
      omega

theorem run_good {pool pool2 : MemPool} {ops : List PoolOp}
    (hg : Good pool) (h : run pool ops = .ok pool2) :
    Good pool2 ∧ pool2.m_numberOfChunks = pool.m_numberOfChunks ∧
    pool2.m_minFree ≤ pool.m_minFree := by
  induction ops generalizing pool with
  | nil =>
    simp only [run, Except.ok.injEq] at h
    subst h
    exact ⟨hg, rfl, le_refl _⟩
  | cons op ops ih =>
    unfold run at h
    cases hs : step pool op with
    | error e => rw [hs] at h; cases h
    | ok pool1 =>
      rw [hs] at h
      obtain ⟨hg1, hn1, hm1⟩ := step_good hg hs
      obtain ⟨hg2, hn2, hm2⟩ := ih hg1 h
      exact ⟨hg2, hn2.trans hn1, le_trans hm2 hm1⟩

theorem construct_good {cs n raw : Nat} {pool : MemPool} (hn : n < U32MOD)
    (h : MemPool.construct cs n raw = .ok pool) : Good pool := by
  obtain ⟨-, h2, -, h4, h5, h6⟩ := construct_ok_fields cs n raw pool h
  refine ⟨by rw [h2]; exact hn, ?_, ?_⟩
  · unfold Conservation
    rw [h2, h4, h5, List.length_range]
    omega
  · rw [h2, h5, h6]
    omega

theorem freeChunk_eq (pool : MemPool) (chunk : Nat)
    (hn1 : 1 ≤ pool.m_numberOfChunks) (hn : pool.m_numberOfChunks < U32MOD)
    (hrange64 : pool.m_chunkSize * (pool.m_numberOfChunks - 1) < U64MOD) :
    pool.freeChunk chunk =
      if pool.m_rawMemory ≤ chunk ∧
          chunk ≤ pool.m_rawMemory + pool.m_chunkSize * (pool.m_numberOfChunks - 1) then
        if (chunk - pool.m_rawMemory) % pool.m_chunkSize = 0 then
          if pool.m_freeIndices.length < pool.m_numberOfChunks then
            .ok { pool with
                  m_freeIndices := pool.m_freeIndices ++
                    [((chunk - pool.m_rawMemory) / pool.m_chunkSize) % U32MOD]
                  m_usedChunks := sub32 pool.m_usedChunks 1 }
          else
            .error .POSH_MEMPOOL_POSSIBLE_DOUBLE_FREE
        else
          .error .PRECONDITION_VIOLATION
      else
        .error .PRECONDITION_VIOLATION := by
  have hsub : sub32 pool.m_numberOfChunks 1 = pool.m_numberOfChunks - 1 :=
    sub32_eq_of_le _ _ hn1 hn
  have hmul : mul64 pool.m_chunkSize (pool.m_numberOfChunks - 1) =
      pool.m_chunkSize * (pool.m_numberOfChunks - 1) :=
    mul64_eq_of_lt _ _ hrange64
  by_cases hA : pool.m_rawMemory ≤ chunk ∧
      chunk ≤ pool.m_rawMemory + pool.m_chunkSize * (pool.m_numberOfChunks - 1)
  · by_cases hB : (chunk - pool.m_rawMemory) % pool.m_chunkSize = 0
    · by_cases hC : pool.m_freeIndices.length < pool.m_numberOfChunks
      · simp [MemPool.freeChunk, pointerToIndex, freeListPush, hsub, hmul,
          hA.1, hA.2, hB, hC]
      · simp [MemPool.freeChunk, pointerToIndex, freeListPush, hsub, hmul,
          hA.1, hA.2, hB, hC]
    · simp [MemPool.freeChunk, pointerToIndex, freeListPush, hsub, hmul,
        hA.1, hA.2, hB]
  · have hA2 : ¬ (pool.m_rawMemory ≤ chunk ∧
        chunk ≤ pool.m_rawMemory + mul64 pool.m_chunkSize (sub32 pool.m_numberOfChunks 1)) := by
      rw [hsub, hmul]; exact hA
    simp only [MemPool.freeChunk]
    rw [if_neg hA2, if_neg hA]

/-- Claim C1: for every valid MemPool (chunkSize a positive multiple of
CHUNK_MEMORY_ALIGNMENT, chunkCount at least 1) and every finite sequence of
completed getChunk and freeChunk calls executed sequentially, at every
quiescent point the number of indices held in the free-index queue plus the
value of usedChunks equals chunkCount. -/
theorem mempool_conservation (cs n raw : Nat) (ops : List PoolOp)
    (pool0 pool1 : MemPool)
    (hcs : 0 < cs) (hca : cs % CHUNK_MEMORY_ALIGNMENT = 0)
    (hn1 : 1 ≤ n) (hn : n < U32MOD)
    (h0 : MemPool.construct cs n raw = .ok pool0)
    (h1 : run pool0 ops = .ok pool1) :
    pool1.m_freeIndices.length + pool1.m_usedChunks = n := by
  have hg := construct_good hn h0
  obtain ⟨-, hc1, -⟩ := (run_good hg h1).1
  have hcount := (run_good hg h1).2.1
  have hn0 := (construct_ok_fields cs n raw pool0 h0).2.1
  unfold Conservation at hc1
  omega

/-- Witness for claim C1 at a concrete two-chunk pool after one completed
acquire. -/
theorem mempool_conservation_witness :
    ({ m_chunkSize := 32, m_numberOfChunks := 2, m_rawMemory := 0,
       m_freeIndices := [1], m_usedChunks := 1, m_minFree := 1 } :
      MemPool).m_freeIndices.length +
      ({ m_chunkSize := 32, m_numberOfChunks := 2, m_rawMemory := 0,
         m_freeIndices := [1], m_usedChunks := 1, m_minFree := 1 } :
        MemPool).m_usedChunks = 2 :=
  mempool_conservation 32 2 0 [PoolOp.acquire]
    { m_chunkSize := 32, m_numberOfChunks := 2, m_rawMemory := 0,
      m_freeIndices := [0, 1], m_usedChunks := 0, m_minFree := 2 }
    { m_chunkSize := 32, m_numberOfChunks := 2, m_rawMemory := 0,
      m_freeIndices := [1], m_usedChunks := 1, m_minFree := 1 }
    (by decide) (by decide) (by decide) (by decide) (by rfl) (by rfl)

/-- Claim C2: getChunk returns null exactly when the pop from the
free-index queue fails, without invoking the fatal error handler (the step
always completes); when the pop succeeds with index i it increments
usedChunks by one and returns the address rawMemory + i * chunkSize. -/
theorem getChunk_contract (pool : MemPool) :
    (pool.getChunk.1 = none ↔ freeListPop pool.m_freeIndices = none) ∧
    (∃ pool2, step pool PoolOp.acquire = .ok pool2) ∧
    (∀ i rest, freeListPop pool.m_freeIndices = some (i, rest) →
      pool.m_usedChunks + 1 < U32MOD → i * pool.m_chunkSize < U64MOD →
      pool.getChunk.1 = some (pool.m_rawMemory + i * pool.m_chunkSize) ∧
      pool.getChunk.2.m_usedChunks = pool.m_usedChunks + 1) := by
  refine ⟨?_, ⟨pool.getChunk.2, rfl⟩, ?_⟩
  · cases hq : pool.m_freeIndices with
    | nil => rw [getChunk_nil pool hq]; simp [freeListPop]
    | cons i rest => rw [getChunk_cons pool i rest hq]; simp [freeListPop]
  · intro i rest hpop h32 h64
    cases hq : pool.m_freeIndices with
    | nil => rw [hq] at hpop; cases hpop
    | cons j rest2 =>
      rw [hq] at hpop
      unfold freeListPop at hpop
      cases hpop
      rw [getChunk_cons pool i rest hq]
      constructor
      · simp [indexToPointer, mul64_eq_of_lt i pool.m_chunkSize h64]
      · simp [add32_eq_of_lt pool.m_usedChunks 1 h32]

/-- Witness for claim C2 at a concrete pool holding free index 1. -/
theorem getChunk_contract_witness :
    ({ m_chunkSize := 32, m_numberOfChunks := 2, m_rawMemory := 1000,
       m_freeIndices := [1], m_usedChunks := 1, m_minFree := 1 } :
      MemPool).getChunk.1 = some (1000 + 1 * 32) ∧
    ({ m_chunkSize := 32, m_numberOfChunks := 2, m_rawMemory := 1000,
       m_freeIndices := [1], m_usedChunks := 1, m_minFree := 1 } :
      MemPool).getChunk.2.m_usedChunks = 1 + 1 :=
  (getChunk_contract
    { m_chunkSize := 32, m_numberOfChunks := 2, m_rawMemory := 1000,
      m_freeIndices := [1], m_usedChunks := 1, m_minFree := 1 }).2.2
    1 [] (by rfl) (by decide) (by decide)

/-- Claim C10: when getChunk returns null because the free-index queue is
empty, the pool state is completely unchanged: usedChunks, minFree and the
free-index queue hold exactly the values they held before the call. -/
theorem getChunk_exhaustion_frame (pool : MemPool)
    (h : pool.m_freeIndices = []) :
    pool.getChunk = (none, pool) :=
  getChunk_nil pool h

/-- Witness for claim C10 at a concrete exhausted pool. -/
theorem getChunk_exhaustion_frame_witness :
    ({ m_chunkSize := 32, m_numberOfChunks := 2, m_rawMemory := 1000,
       m_freeIndices := [], m_usedChunks := 2, m_minFree := 0 } :
      MemPool).getChunk =
      (none,
       { m_chunkSize := 32, m_numberOfChunks := 2, m_rawMemory := 1000,
         m_freeIndices := [], m_usedChunks := 2, m_minFree := 0 }) :=
  getChunk_exhaustion_frame
    { m_chunkSize := 32, m_numberOfChunks := 2, m_rawMemory := 1000,
      m_freeIndices := [], m_usedChunks := 2, m_minFree := 0 } rfl

/-- Claim C3: freeChunk raises a fatal error when the pointer lies outside
the range from rawMemory to rawMemory + (chunkCount - 1) * chunkSize or
when (pointer - rawMemory) is not a multiple of chunkSize; for a valid
pointer it computes the index and pushes it onto the free-index queue,
raising the possible-double-free fatal error exactly when that push fails
because the queue is already full; on the non-fatal path usedChunks is
decremented by one. -/
theorem freeChunk_contract (pool : MemPool) (chunk : Nat)
    (hn1 : 1 ≤ pool.m_numberOfChunks) (hn : pool.m_numberOfChunks < U32MOD)
    (hcons : Conservation pool)
    (hrange64 : pool.m_chunkSize * (pool.m_numberOfChunks - 1) < U64MOD) :
    (¬ (pool.m_rawMemory ≤ chunk ∧
        chunk ≤ pool.m_rawMemory + pool.m_chunkSize * (pool.m_numberOfChunks - 1)) →
      pool.freeChunk chunk = .error .PRECONDITION_VIOLATION) ∧
    ((pool.m_rawMemory ≤ chunk ∧
        chunk ≤ pool.m_rawMemory + pool.m_chunkSize * (pool.m_numberOfChunks - 1)) →
      (¬ (chunk - pool.m_rawMemory) % pool.m_chunkSize = 0 →
        pool.freeChunk chunk = .error .PRECONDITION_VIOLATION) ∧
      ((chunk - pool.m_rawMemory) % pool.m_chunkSize = 0 →
        (pool.freeChunk chunk = .error .POSH_MEMPOOL_POSSIBLE_DOUBLE_FREE ↔
          ¬ pool.m_freeIndices.length < pool.m_numberOfChunks) ∧
        (pool.m_freeIndices.length < pool.m_numberOfChunks →
          pool.freeChunk chunk =
            .ok { pool with
                  m_freeIndices := pool.m_freeIndices ++
                    [((chunk - pool.m_rawMemory) / pool.m_chunkSize) % U32MOD]
                  m_usedChunks := pool.m_usedChunks - 1 }))) := by
  rw [freeChunk_eq pool chunk hn1 hn hrange64]
  unfold Conservation at hcons
  constructor
  · intro hA
    rw [if_neg hA]
  · intro hA
    rw [if_pos hA]
    constructor
    · intro hB
      rw [if_neg hB]
    · intro hB
      rw [if_pos hB]
      constructor
      · by_cases hC : pool.m_freeIndices.length < pool.m_numberOfChunks
        · rw [if_pos hC]
          constructor
          · intro hcontra; cases hcontra
          · intro hcontra; exact absurd hC hcontra
        · rw [if_neg hC]
          exact ⟨fun _ => hC, fun _ => rfl⟩
      · intro hC
        rw [if_pos hC, sub32_eq_of_le _ _ (by omega) (by omega)]

/-- Witness for claim C3: releasing the base pointer of a two-chunk pool
with one chunk in use pushes index 0 and decrements usedChunks. -/
theorem freeChunk_contract_witness :
    ({ m_chunkSize := 32, m_numberOfChunks := 2, m_rawMemory := 1000,
       m_freeIndices := [1], m_usedChunks := 1, m_minFree := 1 } :
      MemPool).freeChunk 1000 =
      .ok { m_chunkSize := 32, m_numberOfChunks := 2, m_rawMemory := 1000,
            m_freeIndices := [1, (1000 - 1000) / 32 % U32MOD],
            m_usedChunks := 1 - 1, m_minFree := 1 } :=
  (((freeChunk_contract
      { m_chunkSize := 32, m_numberOfChunks := 2, m_rawMemory := 1000,
        m_freeIndices := [1], m_usedChunks := 1, m_minFree := 1 }
      1000 (by decide) (by decide) (by decide) (by decide)).2
    (by decide)).2 (by decide)).2 (by decide)

/-- Claim C5: minFree is initialized to chunkCount at construction, never
increases over any sequence of completed pool operations, and at every
observation minFree is at most chunkCount - usedChunks. -/
theorem minFree_contract (cs n raw : Nat) (ops1 ops2 : List PoolOp)
    (pool0 pool1 pool2 : MemPool) (hn : n < U32MOD)
    (h0 : MemPool.construct cs n raw = .ok pool0)
    (h1 : run pool0 ops1 = .ok pool1)
    (h2 : run pool1 ops2 = .ok pool2) :
    pool0.m_minFree = n ∧
    pool2.m_minFree ≤ pool1.m_minFree ∧
    pool1.m_minFree ≤ pool1.m_numberOfChunks - pool1.m_usedChunks := by
  have hg0 := construct_good hn h0
  obtain ⟨hg1, -, -⟩ := run_good hg0 h1
  obtain ⟨-, -, hmono⟩ := run_good hg1 h2
  exact ⟨(construct_ok_fields cs n raw pool0 h0).2.2.2.2.2, hmono, hg1.2.2⟩

/-- Witness for claim C5 on a one-chunk pool: acquire then release. -/
theorem minFree_contract_witness :
    ({ m_chunkSize := 32, m_numberOfChunks := 1, m_rawMemory := 0,
       m_freeIndices := [0], m_usedChunks := 0, m_minFree := 1 } :
      MemPool).m_minFree = 1 ∧
    ({ m_chunkSize := 32, m_numberOfChunks := 1, m_rawMemory := 0,
       m_freeIndices := [0], m_usedChunks := 0, m_minFree := 0 } :
      MemPool).m_minFree ≤
      ({ m_chunkSize := 32, m_numberOfChunks := 1, m_rawMemory := 0,
         m_freeIndices := [], m_usedChunks := 1, m_minFree := 0 } :
        MemPool).m_minFree ∧
    ({ m_chunkSize := 32, m_numberOfChunks := 1, m_rawMemory := 0,
       m_freeIndices := [], m_usedChunks := 1, m_minFree := 0 } :
      MemPool).m_minFree ≤
      ({ m_chunkSize := 32, m_numberOfChunks := 1, m_rawMemory := 0,
         m_freeIndices := [], m_usedChunks := 1, m_minFree := 0 } :
        MemPool).m_numberOfChunks -
      ({ m_chunkSize := 32, m_numberOfChunks := 1, m_rawMemory := 0,
         m_freeIndices := [], m_usedChunks := 1, m_minFree := 0 } :
        MemPool).m_usedChunks :=
  minFree_contract 32 1 0 [PoolOp.acquire] [PoolOp.release 0]
    { m_chunkSize := 32, m_numberOfChunks := 1, m_rawMemory := 0,
      m_freeIndices := [0], m_usedChunks := 0, m_minFree := 1 }
    { m_chunkSize := 32, m_numberOfChunks := 1, m_rawMemory := 0,
      m_freeIndices := [], m_usedChunks := 1, m_minFree := 0 }
    { m_chunkSize := 32, m_numberOfChunks := 1, m_rawMemory := 0,
      m_freeIndices := [0], m_usedChunks := 0, m_minFree := 0 }
    (by decide) (by rfl) (by rfl) (by rfl)

/-- Claim C4: for every positive chunkSize and base pointer rawMemory,
pointerToIndex inverts indexToPointer on every index below chunkCount, and
indexToPointer inverts pointerToIndex on every chunk-aligned pointer in the
pool range. -/
theorem pointer_index_roundTrip (count chunkSize raw : Nat)
    (hs : 0 < chunkSize) (hcount : count < U32MOD)
    (hov : chunkSize * count < U64MOD) :
    (∀ i, i < count →
      pointerToIndex (indexToPointer i chunkSize raw) chunkSize raw = .ok i) ∧
    (∀ p k, k < count → p = raw + k * chunkSize →
      ∃ j, pointerToIndex p chunkSize raw = .ok j ∧
        indexToPointer j chunkSize raw = p) := by
  have key : ∀ k, k < count → indexToPointer k chunkSize raw = raw + k * chunkSize := by
    intro k hk
    unfold indexToPointer
    rw [mul64_eq_of_lt]
    calc k * chunkSize < count * chunkSize := by
          exact Nat.mul_lt_mul_of_lt_of_le hk (le_refl chunkSize) hs
      _ = chunkSize * count := Nat.mul_comm _ _
      _ < U64MOD := hov
  have main : ∀ k, k < count →
      pointerToIndex (raw + k * chunkSize) chunkSize raw = .ok k := by
    intro k hk
    simp only [pointerToIndex, Nat.add_sub_cancel_left]
    rw [if_pos (Nat.mul_mod_left k chunkSize), Nat.mul_div_cancel _ hs,
      Nat.mod_eq_of_lt (lt_trans hk hcount)]
  constructor
  · intro i hi
    rw [key i hi]
    exact main i hi
  · intro p k hk hp
    subst hp
    exact ⟨k, main k hk, key k hk⟩

/-- Witness for claim C4 in a pool of four 32-byte chunks based at 1000:
index 3 and the aligned pointer of index 2 both round-trip. -/
theorem pointer_index_roundTrip_witness :
    pointerToIndex (indexToPointer 3 32 1000) 32 1000 = .ok 3 ∧
    ∃ j, pointerToIndex 1064 32 1000 = .ok j ∧ indexToPointer j 32 1000 = 1064 :=
  ⟨(pointer_index_roundTrip 4 32 1000 (by decide) (by decide) (by decide)).1
      3 (by decide),
   (pointer_index_roundTrip 4 32 1000 (by decide) (by decide) (by decide)).2
      1064 2 (by decide) (by decide)⟩

/-- Claim C6: construction raises the alignment fatal error when chunkSize
is not a multiple of CHUNK_MEMORY_ALIGNMENT, the overflow check
`chunkSize <= UINT64_MAX / chunkCount` is equivalent to
`chunkSize * chunkCount <= UINT64_MAX` for chunkCount at least 1, a failed
overflow check raises a fatal precondition failure, and when both checks
pass construction succeeds with no fatal error. -/
theorem construct_checks (cs n raw : Nat) (hn : 1 ≤ n) :
    (¬ cs % CHUNK_MEMORY_ALIGNMENT = 0 →
      MemPool.construct cs n raw =
        .error .MEPOO_MEMPOOL_CHUNKSIZE_MUST_BE_MULTIPLE_OF_CHUNK_MEMORY_ALIGNMENT) ∧
    ((cs ≤ UINT64_MAX / n) ↔ cs * n ≤ UINT64_MAX) ∧
    (cs % CHUNK_MEMORY_ALIGNMENT = 0 → cs * n ≤ UINT64_MAX →
      ∃ pool, MemPool.construct cs n raw = .ok pool) ∧
    (cs % CHUNK_MEMORY_ALIGNMENT = 0 → UINT64_MAX < cs * n →
      MemPool.construct cs n raw = .error .PRECONDITION_VIOLATION) := by
  have hiff : cs ≤ UINT64_MAX / n ↔ cs * n ≤ UINT64_MAX :=
    Nat.le_div_iff_mul_le hn
  refine ⟨?_, hiff, ?_, ?_⟩
  · intro h
    unfold MemPool.construct
    have hb : ¬ (isMultipleOfAlignment cs = true) := by
      simp [isMultipleOfAlignment, h]
    rw [if_neg hb]
  · intro h1 h2
    refine ⟨{ m_chunkSize := cs, m_numberOfChunks := n, m_rawMemory := raw,
              m_freeIndices := List.range n, m_usedChunks := 0,
              m_minFree := n }, ?_⟩
    unfold MemPool.construct
    have hb : isMultipleOfAlignment cs = true := by
      simp [isMultipleOfAlignment, h1]
    rw [if_pos hb, if_pos (hiff.mpr h2)]
  · intro h1 h2
    unfold MemPool.construct
    have hb : isMultipleOfAlignment cs = true := by
      simp [isMultipleOfAlignment, h1]
    have hno : ¬ cs ≤ UINT64_MAX / n := fun hc => absurd (hiff.mp hc) (by omega)
    rw [if_pos hb, if_neg hno]

/-- Witness for claim C6: chunk size 32 with 2 chunks passes both checks;
chunk size 33 raises the alignment fatal error. -/
theorem construct_checks_witness :
    ((32 ≤ UINT64_MAX / 2) ↔ 32 * 2 ≤ UINT64_MAX) ∧
    (∃ pool, MemPool.construct 32 2 0 = .ok pool) ∧
    MemPool.construct 33 2 0 =
      .error .MEPOO_MEMPOOL_CHUNKSIZE_MUST_BE_MULTIPLE_OF_CHUNK_MEMORY_ALIGNMENT :=
  ⟨(construct_checks 32 2 0 (by decide)).2.1,
   (construct_checks 32 2 0 (by decide)).2.2.1 (by decide) (by decide),
   (construct_checks 33 2 0 (by decide)).1 (by decide)⟩

/-- Counterexample to claim C7: with `IOX_MAX_FILENAME_LENGTH = 255` and a
lock-path literal of 5 characters (such as "/tmp/"), the code yields
`255 - 6 - 6 = 243`, not `255 - 5 - 5 - 1 = 244`: the `sizeof` of each
character-array literal counts its NUL terminator, so one more byte is
subtracted than the claim states. -/
theorem filename_length_counterexample :
    FILENAME_LENGTH 255 5 ≠ 255 - 5 - LOCK_FILE_SUFFIX_LEN - 1 := by
  decide

/-- Claim C7 (amended): the effective FileLock file-name budget equals
MAX_FILENAME_LENGTH - len(prefix) - len(".lock") - 2, the final 2 being the
NUL terminators counted by `sizeof` of the two character-array literals. -/
theorem filename_length_amended (maxFilenameLength lockPathPfxLen : Nat) :
    FILENAME_LENGTH maxFilenameLength lockPathPfxLen =
      maxFilenameLength - lockPathPfxLen - LOCK_FILE_SUFFIX_LEN - 2 := by
  unfold FILENAME_LENGTH sizeofCharArray LOCK_FILE_SUFFIX_LEN
  omega

/-- Claim C8: usedSizeOfChunk returns payloadOffset + payloadSize when that
sum does not exceed chunkSize and raises the fatal error path otherwise; in
particular a header with chunkSize twice the header size and payloadSize
UINT32_MAX is fatal. -/
theorem usedSizeOfChunk_contract (h : ChunkHeader) :
    (h.payloadOffset + h.payloadSize ≤ h.chunkSize →
      h.usedSizeOfChunk = .ok (h.payloadOffset + h.payloadSize)) ∧
    (h.chunkSize < h.payloadOffset + h.payloadSize →
      h.usedSizeOfChunk = .error .PRECONDITION_VIOLATION) ∧
    (ChunkHeader.construct (2 * SIZEOF_CHUNK_HEADER) UINT32_MAX 1 0
        0).usedSizeOfChunk = .error .PRECONDITION_VIOLATION := by
  refine ⟨?_, ?_, by rfl⟩
  · intro hle
    unfold ChunkHeader.usedSizeOfChunk
    rw [if_pos hle]
  · intro hlt
    unfold ChunkHeader.usedSizeOfChunk
    rw [if_neg (by omega)]

/-- Witness for claim C8 at concrete headers: a fitting payload succeeds, a
payload of UINT32_MAX bytes in a 128-byte chunk is fatal. -/
theorem usedSizeOfChunk_contract_witness :
    ({ chunkSize := 128, payloadSize := 1, payloadOffset := 64 } :
      ChunkHeader).usedSizeOfChunk = .ok 65 ∧
    ({ chunkSize := 128, payloadSize := 2 ^ 32 - 1, payloadOffset := 64 } :
      ChunkHeader).usedSizeOfChunk = .error .PRECONDITION_VIOLATION :=
  ⟨(usedSizeOfChunk_contract
      { chunkSize := 128, payloadSize := 1, payloadOffset := 64 }).1 (by decide),
   (usedSizeOfChunk_contract
      { chunkSize := 128, payloadSize := 2 ^ 32 - 1, payloadOffset := 64 }).2.1
      (by decide)⟩

/-- Claim C9: fromPayload of a null pointer is null, and for every chunk
built with a given layout the payload pointer round-trips back to its
owning header. -/
theorem fromPayload_roundTrip (base chunkSize payloadSize payloadAlignment
    userHeaderSize userHeaderAlignment : Nat) :
    (mkChunk base chunkSize payloadSize payloadAlignment userHeaderSize
        userHeaderAlignment).fromPayload none = none ∧
    (mkChunk base chunkSize payloadSize payloadAlignment userHeaderSize
        userHeaderAlignment).fromPayload
      (some (mkChunk base chunkSize payloadSize payloadAlignment
        userHeaderSize userHeaderAlignment).payload) = some base := by
  by_cases h : userHeaderSize = 0 <;>
    simp [mkChunk, ChunkHeader.construct, Chunk.fromPayload, Chunk.payload, h]

end Iceoryx
